import Mathlib

/-!
# Verification of the silhouette scoring engine (prototipo-game)

Shallow embedding of the core scoring pipeline of the repository:

* masks and grids (`Grid`, `getPix`, `mkGrid`), mirroring the numpy 2-D
  arrays used throughout `core/vision.py`, `shape-se/core/vision.py` and
  `shape_se/core/vision.py`;
* OpenCV-style morphology (`cvDilate`, `cvErode`, all-ones square kernels,
  with OpenCV's border conventions: out-of-image pixels count as background
  for dilation and as foreground for erosion);
* the `calculate_fill_percentage` variants (overlap scorer);
* the win state machine in `Game.process_frame` of `core/game.py` and
  `shape_se/core/game.py`;
* the foreground estimator of `shape-se/core/vision.py`
  (`get_mediapipe_mask`, `get_background_subtraction_mask`,
  `get_segmentation_mask`).

uint8 binary masks (values 0/255, or 0/1 after `astype(np.uint8)` of a
boolean array) are represented as `Grid Bool` (`true` corresponds to the
nonzero value); raw uint8 images keep their numeric values as `Grid ℕ`;
floating point quantities (percentages, the background model) are modelled
as rationals.
-/

/-- A 2-D grid stored as a list of rows, mirroring a numpy array. -/
abbrev Grid (α : Type) := List (List α)

/-- Read pixel `(i, j)` of a boolean grid.  Out-of-range reads (negative or
past the stored rows/columns) return `false`, matching the convention that a
mask is background outside the image. -/
def getPix (m : Grid Bool) (i j : Int) : Bool :=
  if i < 0 ∨ j < 0 then false
  else (m.getD i.toNat []).getD j.toNat false

/-- Materialize an `h × w` grid from a pixel function. -/
def mkGrid (h w : ℕ) (f : ℕ → ℕ → Bool) : Grid Bool :=
  (List.range h).map fun i => (List.range w).map fun j => f i j

lemma getPix_mkGrid (h w : ℕ) (f : ℕ → ℕ → Bool) (i j : ℕ)
    (hi : i < h) (hj : j < w) :
    getPix (mkGrid h w f) (i : Int) (j : Int) = f i j := by
  unfold getPix mkGrid
  rw [if_neg (by omega)]
  simp [List.getD_eq_getElem?_getD, List.getElem?_map, List.getElem?_range, hi, hj]

lemma getPix_mkGrid_int (h w : ℕ) (f : ℕ → ℕ → Bool) (i j : Int)
    (hi0 : 0 ≤ i) (hi : i < (h : Int)) (hj0 : 0 ≤ j) (hj : j < (w : Int)) :
    getPix (mkGrid h w f) i j = f i.toNat j.toNat := by
  have e1 : i = ((i.toNat : ℕ) : Int) := (Int.toNat_of_nonneg hi0).symm
  have e2 : j = ((j.toNat : ℕ) : Int) := (Int.toNat_of_nonneg hj0).symm
  rw [e1, e2]
  exact getPix_mkGrid h w f i.toNat j.toNat (by omega) (by omega)

/-- Offsets of an all-ones square structuring element of radius `k`
(`np.ones((2k+1, 2k+1), np.uint8)` with the default centered anchor). -/
def offs (k : ℕ) : List Int := (List.range (2 * k + 1)).map fun (t : ℕ) => (t : Int) - (k : Int)

lemma mem_offs {k : ℕ} {d : Int} : d ∈ offs k ↔ -(k : Int) ≤ d ∧ d ≤ (k : Int) := by
  unfold offs
  constructor
  · intro hd
    obtain ⟨t, ht, hte⟩ := List.mem_map.mp hd
    rw [List.mem_range] at ht
    omega
  · intro hd
    refine List.mem_map.mpr ⟨(d + k).toNat, ?_, ?_⟩
    · rw [List.mem_range]; omega
    · omega

lemma zero_mem_offs (k : ℕ) : (0 : Int) ∈ offs k := by
  rw [mem_offs]; omega

lemma neg_mem_offs {k : ℕ} {d : Int} (h : d ∈ offs k) : -d ∈ offs k := by
  rw [mem_offs] at h ⊢; omega

/-- `cv2.dilate(m, np.ones((2k+1, 2k+1)), ...)` on a binary image of size
`h × w`: a pixel is set iff some pixel of the input is set within Chebyshev
distance `k`.  Out-of-image neighbours count as background (OpenCV's
`BORDER_CONSTANT` with the morphological default value for dilation). -/
def cvDilate (h w k : ℕ) (m : Grid Bool) : Grid Bool :=
  mkGrid h w fun i j =>
    (offs k).any fun di => (offs k).any fun dj =>
      getPix m ((i : Int) + di) ((j : Int) + dj)

/-- `cv2.erode(m, np.ones((2k+1, 2k+1)), ...)` on a binary image of size
`h × w`: a pixel stays set iff every in-image pixel within Chebyshev
distance `k` is set.  Out-of-image neighbours count as foreground (OpenCV's
morphological default border value for erosion). -/
def cvErode (h w k : ℕ) (m : Grid Bool) : Grid Bool :=
  mkGrid h w fun i j =>
    (offs k).all fun di => (offs k).all fun dj =>
      if 0 ≤ (i : Int) + di ∧ (i : Int) + di < (h : Int) ∧
         0 ≤ (j : Int) + dj ∧ (j : Int) + dj < (w : Int) then
        getPix m ((i : Int) + di) ((j : Int) + dj)
      else true

lemma getPix_cvDilate_of_mem (h w k : ℕ) (m : Grid Bool) (i j : ℕ)
    (hi : i < h) (hj : j < w) (di dj : Int)
    (hdi : di ∈ offs k) (hdj : dj ∈ offs k)
    (hm : getPix m ((i : Int) + di) ((j : Int) + dj) = true) :
    getPix (cvDilate h w k m) (i : Int) (j : Int) = true := by
  unfold cvDilate
  rw [getPix_mkGrid h w _ i j hi hj, List.any_eq_true]
  refine ⟨di, hdi, ?_⟩
  rw [List.any_eq_true]
  exact ⟨dj, hdj, hm⟩

/-- Dilation never removes a set pixel (the all-ones kernel contains the
anchor). -/
lemma dilate_ext (h w k : ℕ) (m : Grid Bool) (i j : ℕ)
    (hi : i < h) (hj : j < w) (hm : getPix m (i : Int) (j : Int) = true) :
    getPix (cvDilate h w k m) (i : Int) (j : Int) = true := by
  refine getPix_cvDilate_of_mem h w k m i j hi hj 0 0 (zero_mem_offs k) (zero_mem_offs k) ?_
  simpa using hm

/-- Iterated dilation never removes a set pixel. -/
lemma dilate_iter_ext (h w k n : ℕ) (m : Grid Bool) (i j : ℕ)
    (hi : i < h) (hj : j < w) (hm : getPix m (i : Int) (j : Int) = true) :
    getPix ((cvDilate h w k)^[n] m) (i : Int) (j : Int) = true := by
  induction n generalizing m with
  | zero => simpa using hm
  | succ n ih =>
      rw [Function.iterate_succ_apply]
      exact ih (cvDilate h w k m) (dilate_ext h w k m i j hi hj hm)

/-- Closing (dilation followed by erosion with the same symmetric kernel) is
extensive: it never removes a set pixel. -/
lemma close_ext (h w k : ℕ) (m : Grid Bool) (i j : ℕ)
    (hi : i < h) (hj : j < w) (hm : getPix m (i : Int) (j : Int) = true) :
    getPix (cvErode h w k (cvDilate h w k m)) (i : Int) (j : Int) = true := by
  unfold cvErode
  rw [getPix_mkGrid h w _ i j hi hj, List.all_eq_true]
  intro di hdi
  rw [List.all_eq_true]
  intro dj hdj
  by_cases hb : 0 ≤ (i : Int) + di ∧ (i : Int) + di < (h : Int) ∧
      0 ≤ (j : Int) + dj ∧ (j : Int) + dj < (w : Int)
  · rw [if_pos hb]
    obtain ⟨hb1, hb2, hb3, hb4⟩ := hb
    have e1 : ((((i : Int) + di).toNat : ℕ) : Int) = (i : Int) + di :=
      Int.toNat_of_nonneg hb1
    have e2 : ((((j : Int) + dj).toNat : ℕ) : Int) = (j : Int) + dj :=
      Int.toNat_of_nonneg hb3
    have hlt1 : ((i : Int) + di).toNat < h := by omega
    have hlt2 : ((j : Int) + dj).toNat < w := by omega
    have key := getPix_cvDilate_of_mem h w k m (((i : Int) + di).toNat)
      (((j : Int) + dj).toNat) hlt1 hlt2 (-di) (-dj)
      (neg_mem_offs hdi) (neg_mem_offs hdj) ?_
    · rw [e1, e2] at key
      exact key
    · rw [e1, e2]
      have : (i : Int) + di + -di = (i : Int) := by omega
      have h2 : (j : Int) + dj + -dj = (j : Int) := by omega
      rw [this, h2]
      exact hm
  · rw [if_neg hb]

/-- The refinement used by the overlap scorer: `n` dilations followed by one
erosion, all with the same `(2k+1) × (2k+1)` all-ones kernel, never removes a
set pixel as soon as at least one dilation is performed. -/
lemma refine_ext (h w k n : ℕ) (hn : 1 ≤ n) (m : Grid Bool) (i j : ℕ)
    (hi : i < h) (hj : j < w) (hm : getPix m (i : Int) (j : Int) = true) :
    getPix (cvErode h w k ((cvDilate h w k)^[n] m)) (i : Int) (j : Int) = true := by
  obtain ⟨n', rfl⟩ : ∃ n', n = n' + 1 := ⟨n - 1, by omega⟩
  rw [Function.iterate_succ_apply']
  exact close_ext h w k ((cvDilate h w k)^[n'] m) i j hi hj
    (dilate_iter_ext h w k n' m i j hi hj hm)

/-!
## Counting and binarization

`np.sum` of a boolean mask counts the `true` pixels; `mask > 0` binarizes a
uint8 mask.  All counts run over the common `h × w` domain of the two masks
(the caller resizes them to identical dimensions before scoring).
-/

/-- `mask > 0` on a uint8 grid. -/
def toBin (m : Grid ℕ) : Grid Bool := m.map fun r => r.map fun v => decide (0 < v)

/-- `np.sum(mask)` for a boolean `h × w` mask. -/
def countTrue (h w : ℕ) (m : Grid Bool) : ℕ :=
  ∑ i ∈ Finset.range h, ∑ j ∈ Finset.range w, if getPix m (i : Int) (j : Int) then 1 else 0

/-- `np.sum(np.logical_and(a, b))`. -/
def countAnd (h w : ℕ) (a b : Grid Bool) : ℕ :=
  ∑ i ∈ Finset.range h, ∑ j ∈ Finset.range w,
    if getPix a (i : Int) (j : Int) && getPix b (i : Int) (j : Int) then 1 else 0

/-- `np.sum(np.logical_and(a, np.logical_not(b)))`. -/
def countAndNot (h w : ℕ) (a b : Grid Bool) : ℕ :=
  ∑ i ∈ Finset.range h, ∑ j ∈ Finset.range w,
    if getPix a (i : Int) (j : Int) && !(getPix b (i : Int) (j : Int)) then 1 else 0

lemma countAnd_le_countTrue (h w : ℕ) (a b : Grid Bool) :
    countAnd h w a b ≤ countTrue h w a := by
  unfold countAnd countTrue
  refine Finset.sum_le_sum fun i _ => Finset.sum_le_sum fun j _ => ?_
  cases hx : getPix a (i : Int) (j : Int) <;>
    cases hy : getPix b (i : Int) (j : Int) <;> simp [hx, hy]

lemma countAnd_le_countTrue_right (h w : ℕ) (a b : Grid Bool) :
    countAnd h w a b ≤ countTrue h w b := by
  unfold countAnd countTrue
  refine Finset.sum_le_sum fun i _ => Finset.sum_le_sum fun j _ => ?_
  cases hx : getPix a (i : Int) (j : Int) <;>
    cases hy : getPix b (i : Int) (j : Int) <;> simp [hx, hy]

/-!
## Overlap scorer variants

`VisionProcessor.calculate_fill_percentage` of `src/core/vision.py`
(lines 113-152) and of `src/shape-se/core/vision.py` (lines 167-217).
Both first refine the binarized body mask (dilate, then one erosion) and
then compare it against the binarized target mask.
-/

/-- The mask refinement inside `calculate_fill_percentage` of
`src/core/vision.py` (lines 119-124): binarize, dilate with an all-ones
`11 × 11` kernel for 5 iterations, erode once with the same kernel.
uint8 0/1 morphology with an all-ones kernel coincides with boolean
dilation/erosion. -/
def refineCore (h w : ℕ) (body : Grid ℕ) : Grid Bool :=
  cvErode h w 5 ((cvDilate h w 5)^[5] (toBin body))

/-- The mask refinement inside `calculate_fill_percentage` of
`src/shape-se/core/vision.py` (lines 172-177): `13 × 13` kernel,
6 dilations, one erosion. -/
def refineSE (h w : ℕ) (body : Grid ℕ) : Grid Bool :=
  cvErode h w 6 ((cvDilate h w 6)^[6] (toBin body))

/-- The values computed and stored by `calculate_fill_percentage` of
`src/core/vision.py`: `self.excesso_percentual`, `self.overlap_area`,
`self.total_shape_area`, `self.body_mask_area`, and the returned
percentage. -/
structure CoreResult where
  excessoPercentual : ℚ
  overlapArea : ℕ
  totalShapeArea : ℕ
  bodyMaskArea : ℕ
  percentage : ℚ
  deriving DecidableEq

/-- `calculate_fill_percentage` of `src/core/vision.py` (lines 113-152):
overlap and excess are computed on the refined body mask; the stored excess
is clamped to 100 (0 when the target area is zero); the returned percentage
is `overlap / total * 100` boosted by `1.25` and clamped to 100, and 0 when
the target area is zero. -/
def calculate_fill_percentage_core (h w : ℕ) (body shape : Grid ℕ) : CoreResult :=
  { excessoPercentual :=
      if 0 < countTrue h w (toBin shape) then
        min 100 ((countAndNot h w (refineCore h w body) (toBin shape) : ℚ) /
          (countTrue h w (toBin shape) : ℚ) * 100)
      else 0
    overlapArea := countAnd h w (toBin shape) (refineCore h w body)
    totalShapeArea := countTrue h w (toBin shape)
    bodyMaskArea := countTrue h w (refineCore h w body)
    percentage :=
      if countTrue h w (toBin shape) = 0 then 0
      else min 100 ((countAnd h w (toBin shape) (refineCore h w body) : ℚ) /
        (countTrue h w (toBin shape) : ℚ) * 100 * (5 / 4)) }

/-- `overlap` of `src/shape-se/core/vision.py` line 180. -/
def seOverlap (h w : ℕ) (body shape : Grid ℕ) : ℕ :=
  countAnd h w (toBin shape) (refineSE h w body)

/-- `total_shape` of `src/shape-se/core/vision.py` line 181. -/
def seTotal (h w : ℕ) (shape : Grid ℕ) : ℕ := countTrue h w (toBin shape)

/-- `body_area` of `src/shape-se/core/vision.py` line 185. -/
def seBodyArea (h w : ℕ) (body : Grid ℕ) : ℕ := countTrue h w (refineSE h w body)

/-- `outside_shape = body_area - overlap` (line 186); the overlap never
exceeds the body area, so natural subtraction agrees with the numpy
integer subtraction. -/
def seOutside (h w : ℕ) (body shape : Grid ℕ) : ℕ :=
  seBodyArea h w body - seOverlap h w body shape

/-- `excesso_percentual` (lines 190-191): `(outside / total) * 100` when the
target has pixels, else 0, then clamped to 100. -/
def seExcesso (h w : ℕ) (body shape : Grid ℕ) : ℚ :=
  min 100 (if 0 < seTotal h w shape then
    (seOutside h w body shape : ℚ) / (seTotal h w shape : ℚ) * 100 else 0)

/-- `cobertura_interna` (line 195): `(overlap / total) * 100` when the target
has pixels, else 0. -/
def seCobertura (h w : ℕ) (body shape : Grid ℕ) : ℚ :=
  if 0 < seTotal h w shape then
    (seOverlap h w body shape : ℚ) / (seTotal h w shape : ℚ) * 100 else 0

/-- The values computed and stored by `calculate_fill_percentage` of
`src/shape-se/core/vision.py` plus the returned percentage. -/
structure SEResult where
  excessoPercentual : ℚ
  coberturaInterna : ℚ
  overlapArea : ℕ
  totalShapeArea : ℕ
  bodyMaskArea : ℕ
  percentage : ℚ
  deriving DecidableEq

/-- `calculate_fill_percentage` of `src/shape-se/core/vision.py`
(lines 167-217): the returned percentage is
`cobertura * (1 - excesso / 400)`, boosted by `1.5` and clamped to 100,
and 0 when the target area is zero. -/
def calculate_fill_percentage_se (h w : ℕ) (body shape : Grid ℕ) : SEResult :=
  { excessoPercentual := seExcesso h w body shape
    coberturaInterna := seCobertura h w body shape
    overlapArea := seOverlap h w body shape
    totalShapeArea := seTotal h w shape
    bodyMaskArea := seBodyArea h w body
    percentage :=
      if seTotal h w shape = 0 then 0
      else min 100 (seCobertura h w body shape *
        (1 - seExcesso h w body shape / 400) * (3 / 2)) }

/-- C2: if the target mask has zero true pixels, both scorer variants return
percentage 0 and store excess (and, in the shape-se variant, coverage) 0;
the guard is the structural `total_shape == 0` / `total_shape > 0` check,
never a caught exception (all embedded definitions are total). -/
theorem zero_target_guard (h w : ℕ) (body shape : Grid ℕ)
    (htz : countTrue h w (toBin shape) = 0) :
    (calculate_fill_percentage_core h w body shape).percentage = 0 ∧
    (calculate_fill_percentage_core h w body shape).excessoPercentual = 0 ∧
    (calculate_fill_percentage_se h w body shape).percentage = 0 ∧
    (calculate_fill_percentage_se h w body shape).excessoPercentual = 0 ∧
    (calculate_fill_percentage_se h w body shape).coberturaInterna = 0 := by
  have hse : seTotal h w shape = 0 := htz
  simp [calculate_fill_percentage_core, calculate_fill_percentage_se,
    seExcesso, seCobertura, hse, htz]

/-- Witness for C2 at a concrete all-zero target mask. -/
theorem zero_target_guard_witness :
    (calculate_fill_percentage_core 2 2 [[255, 0], [0, 0]] [[0, 0], [0, 0]]).percentage = 0 ∧
    (calculate_fill_percentage_core 2 2 [[255, 0], [0, 0]] [[0, 0], [0, 0]]).excessoPercentual = 0 ∧
    (calculate_fill_percentage_se 2 2 [[255, 0], [0, 0]] [[0, 0], [0, 0]]).percentage = 0 ∧
    (calculate_fill_percentage_se 2 2 [[255, 0], [0, 0]] [[0, 0], [0, 0]]).excessoPercentual = 0 ∧
    (calculate_fill_percentage_se 2 2 [[255, 0], [0, 0]] [[0, 0], [0, 0]]).coberturaInterna = 0 :=
  zero_target_guard 2 2 [[255, 0], [0, 0]] [[0, 0], [0, 0]] (by decide)

lemma countAnd_mono_right (h w : ℕ) (a b b' : Grid Bool)
    (hbb : ∀ i j, i < h → j < w → getPix b (i : Int) (j : Int) = true →
      getPix b' (i : Int) (j : Int) = true) :
    countAnd h w a b ≤ countAnd h w a b' := by
  unfold countAnd
  refine Finset.sum_le_sum fun i hi => Finset.sum_le_sum fun j hj => ?_
  cases hy : getPix b (i : Int) (j : Int) with
  | false => simp [hy]
  | true =>
      rw [hbb i j (Finset.mem_range.mp hi) (Finset.mem_range.mp hj) hy]

lemma countTrue_mono (h w : ℕ) (b b' : Grid Bool)
    (hbb : ∀ i j, i < h → j < w → getPix b (i : Int) (j : Int) = true →
      getPix b' (i : Int) (j : Int) = true) :
    countTrue h w b ≤ countTrue h w b' := by
  unfold countTrue
  refine Finset.sum_le_sum fun i hi => Finset.sum_le_sum fun j hj => ?_
  cases hy : getPix b (i : Int) (j : Int) with
  | false => simp [hy]
  | true =>
      rw [hbb i j (Finset.mem_range.mp hi) (Finset.mem_range.mp hj) hy]

lemma countAnd_eq_countTrue_of_subset (h w : ℕ) (a b : Grid Bool)
    (hab : ∀ i j, i < h → j < w → getPix a (i : Int) (j : Int) = true →
      getPix b (i : Int) (j : Int) = true) :
    countAnd h w a b = countTrue h w a := by
  unfold countAnd countTrue
  refine Finset.sum_congr rfl fun i hi => Finset.sum_congr rfl fun j hj => ?_
  cases hx : getPix a (i : Int) (j : Int) with
  | false => simp [hx]
  | true =>
      rw [hab i j (Finset.mem_range.mp hi) (Finset.mem_range.mp hj) hx]
      simp [hx]

lemma seExcesso_nonneg (h w : ℕ) (body shape : Grid ℕ) :
    0 ≤ seExcesso h w body shape := by
  unfold seExcesso
  refine le_min (by norm_num) ?_
  split_ifs
  · positivity
  · exact le_refl 0

lemma seExcesso_le_100 (h w : ℕ) (body shape : Grid ℕ) :
    seExcesso h w body shape ≤ 100 := min_le_left _ _

lemma seCobertura_nonneg (h w : ℕ) (body shape : Grid ℕ) :
    0 ≤ seCobertura h w body shape := by
  unfold seCobertura
  split_ifs
  · positivity
  · exact le_refl 0

lemma seCobertura_le_100 (h w : ℕ) (body shape : Grid ℕ) :
    seCobertura h w body shape ≤ 100 := by
  unfold seCobertura
  split_ifs with hpos
  · have hle : (seOverlap h w body shape : ℚ) ≤ (seTotal h w shape : ℚ) :=
      Nat.cast_le.mpr (countAnd_le_countTrue h w (toBin shape) (refineSE h w body))
    have ht : (0 : ℚ) < (seTotal h w shape : ℚ) := by exact_mod_cast hpos
    have h1 : (seOverlap h w body shape : ℚ) / (seTotal h w shape : ℚ) ≤ 1 :=
      (div_le_one ht).mpr hle
    nlinarith
  · norm_num

/-- C3: both scorer variants produce a returned percentage in `[0, 100]`
(after boost and clamp) and stored excess/coverage percentages in
`[0, 100]`, for all body and target masks of the common dimensions. -/
theorem percentages_in_range (h w : ℕ) (body shape : Grid ℕ) :
    0 ≤ (calculate_fill_percentage_core h w body shape).percentage ∧
    (calculate_fill_percentage_core h w body shape).percentage ≤ 100 ∧
    0 ≤ (calculate_fill_percentage_core h w body shape).excessoPercentual ∧
    (calculate_fill_percentage_core h w body shape).excessoPercentual ≤ 100 ∧
    0 ≤ (calculate_fill_percentage_se h w body shape).percentage ∧
    (calculate_fill_percentage_se h w body shape).percentage ≤ 100 ∧
    0 ≤ (calculate_fill_percentage_se h w body shape).excessoPercentual ∧
    (calculate_fill_percentage_se h w body shape).excessoPercentual ≤ 100 ∧
    0 ≤ (calculate_fill_percentage_se h w body shape).coberturaInterna ∧
    (calculate_fill_percentage_se h w body shape).coberturaInterna ≤ 100 := by
  refine ⟨?_, ?_, ?_, ?_, ?_, ?_, ?_, ?_, ?_, ?_⟩
  · show 0 ≤ (if countTrue h w (toBin shape) = 0 then (0 : ℚ) else _)
    split_ifs
    · exact le_refl 0
    · exact le_min (by norm_num) (by positivity)
  · show (if countTrue h w (toBin shape) = 0 then (0 : ℚ) else _) ≤ 100
    split_ifs
    · norm_num
    · exact min_le_left _ _
  · show 0 ≤ (if 0 < countTrue h w (toBin shape) then _ else (0 : ℚ))
    split_ifs
    · exact le_min (by norm_num) (by positivity)
    · exact le_refl 0
  · show (if 0 < countTrue h w (toBin shape) then _ else (0 : ℚ)) ≤ 100
    split_ifs
    · exact min_le_left _ _
    · norm_num
  · show 0 ≤ (if seTotal h w shape = 0 then (0 : ℚ) else _)
    split_ifs
    · exact le_refl 0
    · refine le_min (by norm_num) ?_
      have h1 := seCobertura_nonneg h w body shape
      have h2 := seExcesso_le_100 h w body shape
      have h3 : (0 : ℚ) ≤ 1 - seExcesso h w body shape / 400 := by linarith
      positivity
  · show (if seTotal h w shape = 0 then (0 : ℚ) else _) ≤ 100
    split_ifs
    · norm_num
    · exact min_le_left _ _
  · exact seExcesso_nonneg h w body shape
  · exact seExcesso_le_100 h w body shape
  · exact seCobertura_nonneg h w body shape
  · exact seCobertura_le_100 h w body shape

/-- C10: the refinement inside `calculate_fill_percentage` (dilation for
`n ≥ 1` iterations followed by one erosion with the same square kernel)
never removes a set pixel; consequently, on the `core/vision.py` scorer,
overlap and body-area counts on the refined mask dominate the counts on the
raw mask pair, and the returned coverage percentage is at least the value
the same formula would give on the raw body mask. -/
theorem refinement_extensivity (h w k n : ℕ) (m : Grid Bool) (body shape : Grid ℕ)
    (i j : ℕ) (hn : 1 ≤ n) (hi : i < h) (hj : j < w)
    (hm : getPix m (i : Int) (j : Int) = true) :
    getPix (cvErode h w k ((cvDilate h w k)^[n] m)) (i : Int) (j : Int) = true ∧
    countAnd h w (toBin shape) (toBin body) ≤
      countAnd h w (toBin shape) (refineCore h w body) ∧
    countTrue h w (toBin body) ≤ countTrue h w (refineCore h w body) ∧
    (if countTrue h w (toBin shape) = 0 then (0 : ℚ)
      else min 100 ((countAnd h w (toBin shape) (toBin body) : ℚ) /
        (countTrue h w (toBin shape) : ℚ) * 100 * (5 / 4)))
      ≤ (calculate_fill_percentage_core h w body shape).percentage := by
  have hsub : ∀ i' j', i' < h → j' < w →
      getPix (toBin body) (i' : Int) (j' : Int) = true →
      getPix (refineCore h w body) (i' : Int) (j' : Int) = true :=
    fun i' j' hi' hj' hb =>
      refine_ext h w 5 5 (by norm_num) (toBin body) i' j' hi' hj' hb
  have hAndMono := countAnd_mono_right h w (toBin shape) (toBin body)
    (refineCore h w body) hsub
  have hTrueMono := countTrue_mono h w (toBin body) (refineCore h w body) hsub
  refine ⟨refine_ext h w k n hn m i j hi hj hm, hAndMono, hTrueMono, ?_⟩
  show _ ≤ (if countTrue h w (toBin shape) = 0 then (0 : ℚ) else _)
  split_ifs with hz
  · exact le_refl 0
  · refine min_le_min (le_refl 100) ?_
    have ht : (0 : ℚ) ≤ (countTrue h w (toBin shape) : ℚ) := by positivity
    have hc : (countAnd h w (toBin shape) (toBin body) : ℚ) ≤
        (countAnd h w (toBin shape) (refineCore h w body) : ℚ) :=
      Nat.cast_le.mpr hAndMono
    gcongr

/-- Witness for C10 at a concrete mask, kernel radius 1, one dilation. -/
theorem refinement_extensivity_witness :
    getPix (cvErode 3 3 1 ((cvDilate 3 3 1)^[1]
      (toBin [[0, 0, 0], [0, 255, 0], [0, 0, 0]])))
      ((1 : ℕ) : Int) ((1 : ℕ) : Int) = true :=
  (refinement_extensivity 3 3 1 1 (toBin [[0, 0, 0], [0, 255, 0], [0, 0, 0]])
    [[0, 0, 0], [0, 255, 0], [0, 0, 0]] [[0, 0, 0], [0, 255, 0], [0, 0, 0]]
    1 1 (by norm_num) (by norm_num) (by norm_num) (by decide)).1

lemma allTrue_dilate_iter (h w k n : ℕ) (m : Grid Bool)
    (hAll : ∀ i j, i < h → j < w → getPix m (i : Int) (j : Int) = true) :
    ∀ i j, i < h → j < w →
      getPix ((cvDilate h w k)^[n] m) (i : Int) (j : Int) = true := by
  induction n generalizing m with
  | zero => simpa using hAll
  | succ n ih =>
      intro i j hi hj
      rw [Function.iterate_succ_apply]
      exact ih (cvDilate h w k m)
        (fun i' j' hi' hj' => dilate_ext h w k m i' j' hi' hj' (hAll i' j' hi' hj'))
        i j hi hj

lemma allTrue_erode (h w k : ℕ) (m : Grid Bool)
    (hAll : ∀ i j, i < h → j < w → getPix m (i : Int) (j : Int) = true) :
    ∀ i j, i < h → j < w →
      getPix (cvErode h w k m) (i : Int) (j : Int) = true := by
  intro i j hi hj
  unfold cvErode
  rw [getPix_mkGrid h w _ i j hi hj, List.all_eq_true]
  intro di hdi
  rw [List.all_eq_true]
  intro dj hdj
  by_cases hb : 0 ≤ (i : Int) + di ∧ (i : Int) + di < (h : Int) ∧
      0 ≤ (j : Int) + dj ∧ (j : Int) + dj < (w : Int)
  · rw [if_pos hb]
    obtain ⟨hb1, hb2, hb3, hb4⟩ := hb
    have e1 : ((((i : Int) + di).toNat : ℕ) : Int) = (i : Int) + di :=
      Int.toNat_of_nonneg hb1
    have e2 : ((((j : Int) + dj).toNat : ℕ) : Int) = (j : Int) + dj :=
      Int.toNat_of_nonneg hb3
    have key := hAll (((i : Int) + di).toNat) (((j : Int) + dj).toNat)
      (by omega) (by omega)
    rw [e1, e2] at key
    exact key
  · rw [if_neg hb]

lemma allTrue_refine (h w k n : ℕ) (hn : 1 ≤ n) (m : Grid Bool)
    (hAll1 : ∀ i j, i < h → j < w →
      getPix (cvDilate h w k m) (i : Int) (j : Int) = true) :
    ∀ i j, i < h → j < w →
      getPix (cvErode h w k ((cvDilate h w k)^[n] m)) (i : Int) (j : Int) = true := by
  obtain ⟨n', rfl⟩ : ∃ n', n = n' + 1 := ⟨n - 1, by omega⟩
  refine allTrue_erode h w k _ ?_
  intro i j hi hj
  rw [Function.iterate_succ_apply]
  exact allTrue_dilate_iter h w k n' (cvDilate h w k m) hAll1 i j hi hj

/-- The `3 × 3` test mask with a single set pixel in the centre. -/
def centerMask3 : Grid ℕ := [[0, 0, 0], [0, 255, 0], [0, 0, 0]]

lemma centerMask3_dilate_allTrue :
    ∀ (i j : ℕ), i < 3 → j < 3 →
      getPix (cvDilate 3 3 5 (toBin centerMask3)) (i : Int) (j : Int) = true := by
  intro i j hi hj
  refine getPix_cvDilate_of_mem 3 3 5 (toBin centerMask3) i j hi hj
    ((1 : Int) - (i : Int)) ((1 : Int) - (j : Int)) ?_ ?_ ?_
  · rw [mem_offs]; omega
  · rw [mem_offs]; omega
  · have e1 : (i : Int) + ((1 : Int) - (i : Int)) = ((1 : ℕ) : Int) := by omega
    have e2 : (j : Int) + ((1 : Int) - (j : Int)) = ((1 : ℕ) : Int) := by omega
    rw [e1, e2]
    decide

lemma centerMask3_refined_allTrue :
    ∀ (i j : ℕ), i < 3 → j < 3 →
      getPix (refineCore 3 3 centerMask3) (i : Int) (j : Int) = true := by
  intro i j hi hj
  show getPix (cvErode 3 3 5 ((cvDilate 3 3 5)^[5] (toBin centerMask3)))
    (i : Int) (j : Int) = true
  exact allTrue_refine 3 3 5 5 (by norm_num) (toBin centerMask3)
    centerMask3_dilate_allTrue i j hi hj

/-- C4 counterexample: with body and target masks both equal to the `3 × 3`
single-centre-pixel mask, the `core/vision.py` scorer refines the body mask
to the full `3 × 3` square, so the stored (pre-boost) excess percentage is
100, not 0. -/
theorem identical_mask_excess_counterexample :
    (calculate_fill_percentage_core 3 3 centerMask3 centerMask3).excessoPercentual = 100 ∧
    (calculate_fill_percentage_core 3 3 centerMask3 centerMask3).excessoPercentual ≠ 0 := by
  have hExc : countAndNot 3 3 (refineCore 3 3 centerMask3) (toBin centerMask3) = 8 := by
    have heq : countAndNot 3 3 (refineCore 3 3 centerMask3) (toBin centerMask3) =
        ∑ i ∈ Finset.range 3, ∑ j ∈ Finset.range 3,
          if !(getPix (toBin centerMask3) (i : Int) (j : Int)) then 1 else 0 := by
      unfold countAndNot
      refine Finset.sum_congr rfl fun i hi => Finset.sum_congr rfl fun j hj => ?_
      rw [centerMask3_refined_allTrue i j (Finset.mem_range.mp hi) (Finset.mem_range.mp hj)]
      simp
    rw [heq]
    decide
  have hTot : countTrue 3 3 (toBin centerMask3) = 1 := by decide
  have hMain : (calculate_fill_percentage_core 3 3 centerMask3 centerMask3).excessoPercentual
      = 100 := by
    show (if 0 < countTrue 3 3 (toBin centerMask3) then
        min 100 ((countAndNot 3 3 (refineCore 3 3 centerMask3) (toBin centerMask3) : ℚ) /
          (countTrue 3 3 (toBin centerMask3) : ℚ) * 100)
      else 0) = 100
    rw [hExc, hTot]
    norm_num
  exact ⟨hMain, by rw [hMain]; norm_num⟩

/-- C4 amended: with identical body and target masks the overlap equals the
target area (refinement never removes pixels), but the excess is computed on
the refined body mask, so it is 0 exactly when refinement adds no body pixel
outside the target; in general it need not be 0. -/
theorem identical_mask_scoring_amended (h w : ℕ) (m : Grid ℕ) :
    (calculate_fill_percentage_core h w m m).overlapArea =
      (calculate_fill_percentage_core h w m m).totalShapeArea ∧
    (countAndNot h w (refineCore h w m) (toBin m) = 0 →
      (calculate_fill_percentage_core h w m m).excessoPercentual = 0) := by
  constructor
  · show countAnd h w (toBin m) (refineCore h w m) = countTrue h w (toBin m)
    exact countAnd_eq_countTrue_of_subset h w _ _
      (fun i j hi hj hb => refine_ext h w 5 5 (by norm_num) (toBin m) i j hi hj hb)
  · intro h0
    show (if 0 < countTrue h w (toBin m) then
        min 100 ((countAndNot h w (refineCore h w m) (toBin m) : ℚ) /
          (countTrue h w (toBin m) : ℚ) * 100)
      else 0) = 0
    rw [h0]
    split_ifs
    · norm_num
    · rfl

/-- Witness for the amended C4 on a `1 × 1` mask, where refinement adds
nothing. -/
theorem identical_mask_scoring_amended_witness :
    (calculate_fill_percentage_core 1 1 [[255]] [[255]]).overlapArea =
      (calculate_fill_percentage_core 1 1 [[255]] [[255]]).totalShapeArea ∧
    (calculate_fill_percentage_core 1 1 [[255]] [[255]]).excessoPercentual = 0 :=
  ⟨(identical_mask_scoring_amended 1 1 [[255]]).1,
    (identical_mask_scoring_amended 1 1 [[255]]).2 (by decide)⟩

/-!
## Win debouncer

`Game.process_frame` of `src/core/game.py` (lines 140-158) and of
`src/shape_se/core/game.py` (lines 82-89).  The mutable fields touched by
the victory logic are `self.victory` and `self.victory_time`
(initialized `False` and `0` in `Game.__init__`); timestamps and
percentages are modelled as rationals and the two `time.time()` reads of
one frame are modelled as the same instant `now`.  The boolean paired with
the post-frame state records whether `save_snapshot` was called (the
one-shot win side effect).
-/

/-- `self.victory` / `self.victory_time` of `Game`. -/
structure GameState where
  victory : Bool
  victoryTime : ℚ
  deriving DecidableEq

/-- The initial state set by `Game.__init__` (`victory = False`,
`victory_time = 0`). -/
def initGameState : GameState := ⟨false, 0⟩

/-- The victory logic of `Game.process_frame` in `src/core/game.py`
(lines 140-158): enter `victory` (and take a snapshot) when
`cobertura_interna >= threshold and excesso_percentual < 50 and not victory`;
afterwards, reset `victory` when `now - victory_time > 10`. -/
def process_frame_core (threshold : ℚ) (s : GameState)
    (coberturaInterna excessoPercentual now : ℚ) : GameState × Bool :=
  let step1 : GameState × Bool :=
    if threshold ≤ coberturaInterna ∧ excessoPercentual < 50 ∧ s.victory = false then
      (⟨true, now⟩, true)
    else (s, false)
  let step2 : GameState :=
    if step1.1.victory = true ∧ 10 < now - step1.1.victoryTime then
      ⟨false, step1.1.victoryTime⟩
    else step1.1
  (step2, step1.2)

/-- The victory logic of `Game.process_frame` in `src/shape_se/core/game.py`
(lines 82-89): enter `victory` (and take a snapshot) when
`percentage >= threshold and not victory`; reset when
`now - victory_time > 3`. -/
def process_frame_shape_se (threshold : ℚ) (s : GameState)
    (percentage now : ℚ) : GameState × Bool :=
  let step1 : GameState × Bool :=
    if threshold ≤ percentage ∧ s.victory = false then
      (⟨true, now⟩, true)
    else (s, false)
  let step2 : GameState :=
    if step1.1.victory = true ∧ 3 < now - step1.1.victoryTime then
      ⟨false, step1.1.victoryTime⟩
    else step1.1
  (step2, step1.2)

/-- Run `process_frame_core` over a stream of
`(cobertura, excesso, now)` frames, counting snapshot side effects. -/
def run_core (threshold : ℚ) : GameState → List (ℚ × ℚ × ℚ) → GameState × ℕ
  | s, [] => (s, 0)
  | s, f :: rest =>
      let r := process_frame_core threshold s f.1 f.2.1 f.2.2
      let t := run_core threshold r.1 rest
      (t.1, (if r.2 then 1 else 0) + t.2)

/-- C1: the `Idle → Won` transition of the win debouncer fires exactly when
coverage ≥ threshold, excess < 50 and the state is idle; on that transition
the state becomes `Won` with `victoryTime = now` and the snapshot side
effect fires; while `Won`, no snapshot fires; on the reference stream
`[0, 0, 96, 96, 96]` with zero excess and threshold 95, the win happens at
the third frame and the snapshot fires exactly once.  The `shape_se`
variant has the same one-shot idle guard (without an excess term). -/
theorem win_debouncer_one_shot (threshold : ℚ) (s : GameState)
    (cobertura excesso percentage now : ℚ) :
    ((process_frame_core threshold s cobertura excesso now).2 = true ↔
      (s.victory = false ∧ threshold ≤ cobertura ∧ excesso < 50)) ∧
    (s.victory = false → threshold ≤ cobertura → excesso < 50 →
      (process_frame_core threshold s cobertura excesso now).1 = ⟨true, now⟩) ∧
    (s.victory = true →
      (process_frame_core threshold s cobertura excesso now).2 = false) ∧
    (run_core 95 initGameState [(0, 0, 1), (0, 0, 2)] = (⟨false, 0⟩, 0)) ∧
    (run_core 95 initGameState [(0, 0, 1), (0, 0, 2), (96, 0, 3), (96, 0, 4), (96, 0, 5)]
      = (⟨true, 3⟩, 1)) ∧
    ((process_frame_shape_se threshold s percentage now).2 = true ↔
      (s.victory = false ∧ threshold ≤ percentage)) := by
  refine ⟨?_, ?_, ?_,
    by norm_num [run_core, process_frame_core, initGameState],
    by norm_num [run_core, process_frame_core, initGameState], ?_⟩
  · by_cases hc : threshold ≤ cobertura ∧ excesso < 50 ∧ s.victory = false
    · simp only [process_frame_core, if_pos hc]
      tauto
    · simp only [process_frame_core, if_neg hc]
      constructor
      · intro hfalse
        exact absurd hfalse (by simp)
      · intro ⟨h1, h2, h3⟩
        exact absurd ⟨h2, h3, h1⟩ hc
  · intro h1 h2 h3
    have hc : threshold ≤ cobertura ∧ excesso < 50 ∧ s.victory = false := ⟨h2, h3, h1⟩
    simp only [process_frame_core, if_pos hc]
    rw [if_neg]
    simp only [sub_self]
    intro ⟨_, habs⟩
    norm_num at habs
  · intro hwon
    by_cases hc : threshold ≤ cobertura ∧ excesso < 50 ∧ s.victory = false
    · rw [hc.2.2] at hwon
      exact absurd hwon (by simp)
    · simp only [process_frame_core, if_neg hc]
  · by_cases hc : threshold ≤ percentage ∧ s.victory = false
    · simp only [process_frame_shape_se, if_pos hc]
      tauto
    · simp only [process_frame_shape_se, if_neg hc]
      constructor
      · intro hfalse
        exact absurd hfalse (by simp)
      · intro ⟨h1, h2⟩
        exact absurd ⟨h2, h1⟩ hc

/-- Witness for C1 at concrete inputs: a winning frame from idle snapshots;
the same frame from `Won` does not. -/
theorem win_debouncer_one_shot_witness :
    (process_frame_core 95 ⟨false, 0⟩ 96 0 7).2 = true ∧
    (process_frame_core 95 ⟨false, 0⟩ 96 0 7).1 = ⟨true, 7⟩ ∧
    (process_frame_core 95 ⟨true, 2⟩ 96 0 7).2 = false :=
  ⟨(win_debouncer_one_shot 95 ⟨false, 0⟩ 96 0 0 7).1.mpr
      ⟨rfl, by norm_num, by norm_num⟩,
    (win_debouncer_one_shot 95 ⟨false, 0⟩ 96 0 0 7).2.1 rfl (by norm_num) (by norm_num),
    (win_debouncer_one_shot 95 ⟨true, 2⟩ 96 0 0 7).2.2.1 rfl⟩

/-- C5: once `Won`, the state stays `Won` (for arbitrary coverage and excess
values) until `now - victoryTime` exceeds the cooldown, and returns to idle
exactly when it does; the cooldown is 10 seconds in `core/game.py` and
3 seconds in `shape_se/core/game.py`, and no snapshot fires while `Won`. -/
theorem win_debouncer_cooldown (threshold cobertura excesso percentage now : ℚ)
    (s : GameState) (hwon : s.victory = true) :
    (¬ 10 < now - s.victoryTime →
      (process_frame_core threshold s cobertura excesso now).1 = s) ∧
    (10 < now - s.victoryTime →
      (process_frame_core threshold s cobertura excesso now).1 =
        ⟨false, s.victoryTime⟩) ∧
    (process_frame_core threshold s cobertura excesso now).2 = false ∧
    (¬ 3 < now - s.victoryTime →
      (process_frame_shape_se threshold s percentage now).1 = s) ∧
    (3 < now - s.victoryTime →
      (process_frame_shape_se threshold s percentage now).1 =
        ⟨false, s.victoryTime⟩) := by
  have hguard : ¬ (threshold ≤ cobertura ∧ excesso < 50 ∧ s.victory = false) := by
    rintro ⟨-, -, hfalse⟩
    rw [hwon] at hfalse
    exact absurd hfalse (by simp)
  have hguard2 : ¬ (threshold ≤ percentage ∧ s.victory = false) := by
    rintro ⟨-, hfalse⟩
    rw [hwon] at hfalse
    exact absurd hfalse (by simp)
  refine ⟨?_, ?_, ?_, ?_, ?_⟩
  · intro hcool
    simp only [process_frame_core, if_neg hguard]
    rw [if_neg]
    rintro ⟨-, habs⟩
    exact hcool habs
  · intro hcool
    simp only [process_frame_core, if_neg hguard]
    rw [if_pos ⟨hwon, hcool⟩]
  · simp only [process_frame_core, if_neg hguard]
  · intro hcool
    simp only [process_frame_shape_se, if_neg hguard2]
    rw [if_neg]
    rintro ⟨-, habs⟩
    exact hcool habs
  · intro hcool
    simp only [process_frame_shape_se, if_neg hguard2]
    rw [if_pos ⟨hwon, hcool⟩]

/-- Witness for C5: inside the 10-second cooldown the state is unchanged;
after it, the state returns to idle keeping the old timestamp. -/
theorem win_debouncer_cooldown_witness :
    (process_frame_core 95 ⟨true, 1⟩ 96 0 5).1 = ⟨true, 1⟩ ∧
    (process_frame_core 95 ⟨true, 1⟩ 96 0 20).1 = ⟨false, 1⟩ :=
  ⟨(win_debouncer_cooldown 95 96 0 0 5 ⟨true, 1⟩ rfl).1 (by norm_num),
    (win_debouncer_cooldown 95 96 0 0 20 ⟨true, 1⟩ rfl).2.1 (by norm_num)⟩

/-- C9 counterexample: after winning at time 5 and cooling down at time 100
(far outside the 10-second window), the state is idle again but
`victory_time` still holds the stale value 5, different from its initial
value 0 — the timestamp is not cleared when the win state resets. -/
theorem winstate_timestamp_counterexample :
    (run_core 95 initGameState [(96, 0, 5), (0, 0, 100)]).1.victory = false ∧
    (run_core 95 initGameState [(96, 0, 5), (0, 0, 100)]).1.victoryTime = 5 ∧
    10 < (100 : ℚ) - 5 ∧ (5 : ℚ) ≠ 0 := by
  norm_num [run_core, process_frame_core, initGameState]

/-- C9 amended: `victory_time` is written exactly at `Idle → Won`
transitions (where it is set to `now`) and is never cleared — in particular
the `Won → Idle` cooldown reset keeps the previous timestamp stored, so a
stale timestamp remains after the cooldown window has passed. -/
theorem winstate_timestamp_amended (threshold cobertura excesso now : ℚ)
    (s : GameState) :
    ((process_frame_core threshold s cobertura excesso now).2 = true →
      (process_frame_core threshold s cobertura excesso now).1.victoryTime = now) ∧
    ((process_frame_core threshold s cobertura excesso now).2 = false →
      (process_frame_core threshold s cobertura excesso now).1.victoryTime =
        s.victoryTime) ∧
    (s.victory = true →
      (process_frame_core threshold s cobertura excesso now).1.victory = false →
      (process_frame_core threshold s cobertura excesso now).1.victoryTime =
        s.victoryTime) := by
  by_cases hc : threshold ≤ cobertura ∧ excesso < 50 ∧ s.victory = false
  · refine ⟨?_, ?_, ?_⟩
    · intro _
      simp only [process_frame_core, if_pos hc]
      split_ifs <;> rfl
    · intro hsnap
      simp only [process_frame_core, if_pos hc] at hsnap
      exact absurd hsnap (by simp)
    · intro hwon _
      rw [hc.2.2] at hwon
      exact absurd hwon (by simp)
  · refine ⟨?_, ?_, ?_⟩
    · intro hsnap
      simp only [process_frame_core, if_neg hc] at hsnap
      exact absurd hsnap (by simp)
    · intro _
      simp only [process_frame_core, if_neg hc]
      split_ifs <;> rfl
    · intro _ _
      simp only [process_frame_core, if_neg hc]
      split_ifs <;> rfl

/-- Witness for the amended C9: a cooldown reset at time 20 keeps the old
timestamp 2. -/
theorem winstate_timestamp_amended_witness :
    (process_frame_core 95 ⟨true, 2⟩ 0 0 20).1.victoryTime = 2 :=
  (winstate_timestamp_amended 95 0 0 20 ⟨true, 2⟩).2.1 (by
    norm_num [process_frame_core])

/-!
## Foreground estimator

`VisionProcessor` of `src/shape-se/core/vision.py`: `get_mediapipe_mask`
(lines 103-130), `get_background_subtraction_mask` (lines 132-165) and
`get_segmentation_mask` (lines 82-101).  The external segmenter call
(`self.segmenter.segment`, which may raise) is modelled as an
`Except String` input; the grayscale-and-blur preprocessing
(`cvtColor` + `GaussianBlur`) is external image processing, so the
subtractor receives the already grayscale-blurred uint8 frame.
-/

/-- `np.where(category_mask == 1, 255, 0).astype(np.uint8)`. -/
def maskFromCategory (cat : Grid ℕ) : Grid ℕ :=
  cat.map fun r => r.map fun c => if c = 1 then 255 else 0

/-- `cv2.countNonZero(mask)`. -/
def countNonZero (m : Grid ℕ) : ℕ :=
  (m.map fun r => r.countP fun v => decide (v ≠ 0)).sum

/-- `mask.shape[0] * mask.shape[1]`. -/
def totalPixels (m : Grid ℕ) : ℕ := m.length * (m.headD []).length

/-- `255 - mask` on a uint8 grid. -/
def bitInvert (m : Grid ℕ) : Grid ℕ := m.map fun r => r.map fun v => 255 - v

/-- `np.zeros((h, w), dtype=np.uint8)`. -/
def zerosN (h w : ℕ) : Grid ℕ :=
  (List.range h).map fun _ => (List.range w).map fun _ => 0

/-- `get_mediapipe_mask` (lines 103-130): build the 0/255 mask from the
segmenter's category mask, bit-invert it when strictly more than 70% of the
pixels are set (`mask_count > 0.7 * total_pixels`), and degrade to the
all-zero `frame.shape[:2]` mask when the segmenter raises. -/
def get_mediapipe_mask (segResult : Except String (Grid ℕ)) (h w : ℕ) : Grid ℕ :=
  match segResult with
  | .error _ => zerosN h w
  | .ok cat =>
      if (7 : ℚ) / 10 * (totalPixels (maskFromCategory cat) : ℚ) <
          (countNonZero (maskFromCategory cat) : ℚ) then
        bitInvert (maskFromCategory cat)
      else maskFromCategory cat

/-- C6: when the learned-segmenter mask marks strictly more than 70% of the
frame's pixels, the sub-estimator returns the bit-inverted mask
(`255 - value` per pixel); at or below 70% the mask passes through
unchanged. -/
theorem inversion_heuristic (cat : Grid ℕ) (h w : ℕ) :
    ((7 : ℚ) / 10 * (totalPixels (maskFromCategory cat) : ℚ) <
        (countNonZero (maskFromCategory cat) : ℚ) →
      get_mediapipe_mask (.ok cat) h w = bitInvert (maskFromCategory cat)) ∧
    ((countNonZero (maskFromCategory cat) : ℚ) ≤
        (7 : ℚ) / 10 * (totalPixels (maskFromCategory cat) : ℚ) →
      get_mediapipe_mask (.ok cat) h w = maskFromCategory cat) := by
  constructor
  · intro hc
    simp [get_mediapipe_mask, hc]
  · intro hc
    simp [get_mediapipe_mask, not_lt.mpr hc]

/-- Witness for C6: a fully set `2 × 2` category mask (100% > 70%) is
inverted; a mask with one set pixel (25% ≤ 70%) passes through. -/
theorem inversion_heuristic_witness :
    get_mediapipe_mask (.ok [[1, 1], [1, 1]]) 2 2 =
      bitInvert (maskFromCategory [[1, 1], [1, 1]]) ∧
    get_mediapipe_mask (.ok [[1, 0], [0, 0]]) 2 2 =
      maskFromCategory [[1, 0], [0, 0]] :=
  ⟨(inversion_heuristic [[1, 1], [1, 1]] 2 2).1 (by
      norm_num [totalPixels, countNonZero, maskFromCategory]),
    (inversion_heuristic [[1, 0], [0, 0]] 2 2).2 (by
      norm_num [totalPixels, countNonZero, maskFromCategory])⟩

/-- `gray.copy().astype("float")`. -/
def toQGrid (g : Grid ℕ) : Grid ℚ := g.map fun r => r.map fun v => (v : ℚ)

/-- `cv2.accumulateWeighted(src, dst, alpha)`:
`dst = (1 - alpha) * dst + alpha * src`, pointwise. -/
def accumulateWeighted (src : Grid ℕ) (dst : Grid ℚ) (α : ℚ) : Grid ℚ :=
  List.zipWith (fun rs rd =>
      List.zipWith (fun (s : ℕ) (d : ℚ) => (1 - α) * d + α * (s : ℚ)) rs rd)
    src dst

/-- `cv2.convertScaleAbs(b)`: round, take the absolute value and saturate to
the uint8 range.  (OpenCV rounds half to even; this embedding rounds half
up, which agrees everywhere except at exact ties.) -/
def convertScaleAbs (b : Grid ℚ) : Grid ℕ :=
  b.map fun r => r.map fun x => min 255 (Int.natAbs ⌊x + 1 / 2⌋)

/-- `cv2.absdiff` on uint8 grids. -/
def absdiffG (a b : Grid ℕ) : Grid ℕ :=
  List.zipWith (fun ra rb => List.zipWith (fun x y => max x y - min x y) ra rb) a b

/-- `cv2.threshold(delta, 15, 255, cv2.THRESH_BINARY)[1]`: strictly above
the threshold maps to 255 (`true`), otherwise 0 (`false`). -/
def threshG (d : Grid ℕ) : Grid Bool :=
  d.map fun r => r.map fun v => decide (15 < v)

/-- `np.zeros_like(gray)` as a binary mask. -/
def falseGrid (g : Grid ℕ) : Grid Bool := g.map fun r => r.map fun _ => false

/-- `self.background` / `self.frame_count` of `VisionProcessor`
(`None` / `0` after `__init__`). -/
structure BgState where
  background : Option (Grid ℚ)
  frameCount : ℕ
  deriving DecidableEq

/-- The state set by `VisionProcessor.__init__`. -/
def initBgState : BgState := ⟨none, 0⟩

/-- `get_background_subtraction_mask` (lines 132-165).  During warm-up
(`frame_count < 10`) the background model is seeded (copy on the first
call, blend factor `0.5` afterwards), `frame_count` is incremented, and the
all-false mask is returned.  Afterwards the thresholded absolute difference
from the rounded background model is cleaned up morphologically
(`5 × 5` kernel: dilate twice, then closing with 2 iterations = two more
dilations and two erosions) and returned, and the background model is
updated with blend factor `0.01`; `frame_count` is not incremented.  The
`frame_count ≥ 10` state always carries a seeded background when reached
from `initBgState`; the `none` fallback arm is unreachable there. -/
def get_background_subtraction_mask (st : BgState) (gray : Grid ℕ) :
    Grid Bool × BgState :=
  if st.frameCount < 10 then
    match st.background with
    | none => (falseGrid gray, ⟨some (toQGrid gray), st.frameCount + 1⟩)
    | some b =>
        (falseGrid gray, ⟨some (accumulateWeighted gray b (1 / 2)), st.frameCount + 1⟩)
  else
    match st.background with
    | some b =>
        ((cvErode gray.length (gray.headD []).length 2)^[2]
            ((cvDilate gray.length (gray.headD []).length 2)^[2]
              ((cvDilate gray.length (gray.headD []).length 2)^[2]
                (threshG (absdiffG gray (convertScaleAbs b))))),
          ⟨some (accumulateWeighted gray b (1 / 100)), st.frameCount⟩)
    | none => (falseGrid gray, st)

/-- Run the background subtractor over a list of grayscale frames,
collecting the returned sub-masks. -/
def runBg : BgState → List (Grid ℕ) → List (Grid Bool) × BgState
  | st, [] => ([], st)
  | st, g :: rest =>
      let r := get_background_subtraction_mask st g
      let t := runBg r.2 rest
      (r.1 :: t.1, t.2)

lemma runBg_warmup (grays : List (Grid ℕ)) (st : BgState)
    (hle : st.frameCount + grays.length ≤ 10) :
    (runBg st grays).1 = grays.map falseGrid ∧
    (runBg st grays).2.frameCount = st.frameCount + grays.length := by
  induction grays generalizing st with
  | nil => simp [runBg]
  | cons g rest ih =>
      have hlt : st.frameCount < 10 := by
        simp only [List.length_cons] at hle
        omega
      have hstep : (get_background_subtraction_mask st g).1 = falseGrid g ∧
          (get_background_subtraction_mask st g).2.frameCount = st.frameCount + 1 := by
        rcases hbg : st.background with _ | b <;>
          simp [get_background_subtraction_mask, hlt, hbg]
      have hrest := ih (get_background_subtraction_mask st g).2 (by
        rw [hstep.2]
        simp only [List.length_cons] at hle
        omega)
      refine ⟨?_, ?_⟩
      · show (get_background_subtraction_mask st g).1 ::
            (runBg (get_background_subtraction_mask st g).2 rest).1 = _
        rw [hstep.1, hrest.1, List.map_cons]
      · show (runBg (get_background_subtraction_mask st g).2 rest).2.frameCount = _
        rw [hrest.2, hstep.2]
        simp only [List.length_cons]
        omega

/-- C7: during each of the first 10 calls (`frame_count` values 0 through 9)
the subtractor returns the all-false mask whatever the frame contents, while
the background model is seeded (copied on the first call, then averaged with
blend factor `0.5`); from the 11th call on, the (morphologically cleaned)
thresholded absolute difference is returned and the background model is
blended with factor `0.01`.  Any run of at most 10 calls from the initial
state returns only all-false masks. -/
theorem background_subtraction_warmup (st : BgState) (gray : Grid ℕ)
    (b : Grid ℚ) (grays : List (Grid ℕ)) :
    (st.frameCount < 10 →
      (get_background_subtraction_mask st gray).1 = falseGrid gray ∧
      (get_background_subtraction_mask st gray).2.frameCount = st.frameCount + 1) ∧
    (st.frameCount < 10 → st.background = none →
      (get_background_subtraction_mask st gray).2.background = some (toQGrid gray)) ∧
    (st.frameCount < 10 → st.background = some b →
      (get_background_subtraction_mask st gray).2.background =
        some (accumulateWeighted gray b (1 / 2))) ∧
    (¬ st.frameCount < 10 → st.background = some b →
      (get_background_subtraction_mask st gray).1 =
        (cvErode gray.length (gray.headD []).length 2)^[2]
          ((cvDilate gray.length (gray.headD []).length 2)^[2]
            ((cvDilate gray.length (gray.headD []).length 2)^[2]
              (threshG (absdiffG gray (convertScaleAbs b))))) ∧
      (get_background_subtraction_mask st gray).2 =
        ⟨some (accumulateWeighted gray b (1 / 100)), st.frameCount⟩) ∧
    (st.frameCount + grays.length ≤ 10 →
      (runBg st grays).1 = grays.map falseGrid) := by
  refine ⟨?_, ?_, ?_, ?_, fun hle => (runBg_warmup grays st hle).1⟩
  · intro hlt
    rcases hbg : st.background with _ | b' <;>
      simp [get_background_subtraction_mask, hlt, hbg]
  · intro hlt hbg
    simp [get_background_subtraction_mask, hlt, hbg]
  · intro hlt hbg
    simp [get_background_subtraction_mask, hlt, hbg]
  · intro hge hbg
    simp [get_background_subtraction_mask, hge, hbg]

/-- Witness for C7: the first call from the initial state returns the
all-false mask and seeds the background with the frame itself. -/
theorem background_subtraction_warmup_witness :
    (get_background_subtraction_mask initBgState [[5, 200]]).1 = falseGrid [[5, 200]] ∧
    (get_background_subtraction_mask initBgState [[5, 200]]).2.background =
      some (toQGrid [[5, 200]]) :=
  ⟨((background_subtraction_warmup initBgState [[5, 200]] [[0]] []).1 (by decide)).1,
    (background_subtraction_warmup initBgState [[5, 200]] [[0]] []).2.1 (by decide) rfl⟩

/-- `cv2.bitwise_or` of two equal-size binary masks. -/
def bitwiseOrB (h w : ℕ) (a b : Grid Bool) : Grid Bool :=
  mkGrid h w fun i j => getPix a (i : Int) (j : Int) || getPix b (i : Int) (j : Int)

/-- `get_segmentation_mask` (lines 82-101): union of the (binarized)
mediapipe mask and the background-subtraction mask, then cleanup with a
`9 × 9` kernel (dilate 3 iterations, then closing with 3 iterations =
three more dilations and three erosions). -/
def get_segmentation_mask (h w : ℕ) (segResult : Except String (Grid ℕ))
    (st : BgState) (gray : Grid ℕ) : Grid Bool × BgState :=
  ((cvErode h w 4)^[3] ((cvDilate h w 4)^[3] ((cvDilate h w 4)^[3]
      (bitwiseOrB h w (toBin (get_mediapipe_mask segResult h w))
        (get_background_subtraction_mask st gray).1))),
    (get_background_subtraction_mask st gray).2)

lemma toBin_zerosN (h w : ℕ) :
    toBin (zerosN h w) = mkGrid h w fun _ _ => false := by
  unfold toBin zerosN mkGrid
  rw [List.map_map]
  refine List.map_congr_left fun i _ => ?_
  rw [Function.comp_apply, List.map_map]
  rfl

lemma getPix_toBin_zerosN (h w : ℕ) (i j : ℕ) (hi : i < h) (hj : j < w) :
    getPix (toBin (zerosN h w)) (i : Int) (j : Int) = false := by
  rw [toBin_zerosN, getPix_mkGrid h w _ i j hi hj]

/-- C8: if the learned segmenter raises, `get_mediapipe_mask` substitutes
the all-false `frame.shape[:2]` mask; the estimator's union is then exactly
the background-subtraction sub-mask, and the frame continues through the
(total) combining pipeline — the failure never escapes the estimator. -/
theorem segmenter_failure_degradation (h w : ℕ) (e : String) (st : BgState)
    (gray : Grid ℕ) :
    get_mediapipe_mask (.error e) h w = zerosN h w ∧
    (∀ i j : ℕ, i < h → j < w →
      getPix (toBin (get_mediapipe_mask (.error e) h w)) (i : Int) (j : Int) = false) ∧
    (∀ i j : ℕ, i < h → j < w →
      getPix (bitwiseOrB h w (toBin (get_mediapipe_mask (.error e) h w))
          (get_background_subtraction_mask st gray).1) (i : Int) (j : Int) =
        getPix (get_background_subtraction_mask st gray).1 (i : Int) (j : Int)) ∧
    (get_segmentation_mask h w (.error e) st gray).1 =
      (cvErode h w 4)^[3] ((cvDilate h w 4)^[3] ((cvDilate h w 4)^[3]
        (bitwiseOrB h w (toBin (zerosN h w))
          (get_background_subtraction_mask st gray).1))) ∧
    (get_segmentation_mask h w (.error e) st gray).2 =
      (get_background_subtraction_mask st gray).2 := by
  refine ⟨rfl, ?_, ?_, rfl, rfl⟩
  · intro i j hi hj
    exact getPix_toBin_zerosN h w i j hi hj
  · intro i j hi hj
    unfold bitwiseOrB
    rw [getPix_mkGrid h w _ i j hi hj]
    rw [show get_mediapipe_mask (.error e) h w = zerosN h w from rfl]
    rw [getPix_toBin_zerosN h w i j hi hj, Bool.false_or]

/-- Witness for C8 at a concrete failing segmenter call. -/
theorem segmenter_failure_degradation_witness :
    get_mediapipe_mask (.error "segment raised") 1 2 = zerosN 1 2 ∧
    (get_segmentation_mask 1 2 (.error "segment raised") initBgState [[5, 200]]).2 =
      (get_background_subtraction_mask initBgState [[5, 200]]).2 :=
  ⟨(segmenter_failure_degradation 1 2 "segment raised" initBgState [[5, 200]]).1,
    (segmenter_failure_degradation 1 2 "segment raised" initBgState
      [[5, 200]]).2.2.2.2⟩
